import Mathlib

/-!
# ClipboardManager — verification of the file-list clipboard reader

Shallow embedding of the `ClipboardManager` component declared in
`ClipboardManager.h`.  The repository ships only the exported interface
(the header); the bodies of the exported functions are not part of the
sources, so each operation's behaviour is modelled from the specification,
faithful to its words, over an explicit environment describing the state of
the OS clipboard and the filesystem that a single call observes.

Paths are sequences of wide characters, modelled as `List Char`.  A
clipboard that currently carries a file-list payload (CF_HDROP) is modelled
by `payload = some ps`; a clipboard whose content is not in file-list
format (or empty) by `payload = none`; clipboard-acquisition failure
(contention) by `canOpen = false`.
-/

/-- Windows `MAX_PATH`: the element count of the fixed-width `path` and
`name` fields of `FileInfo` (terminating null included). -/
def MAX_PATH : Nat := 260

/-- Result of a filesystem metadata query for one path: directory flag and
byte size, as the OS reports them. -/
structure FsEntry where
  isDirectory : Bool
  size : Int
deriving Repr, DecidableEq

/-- The environment one call observes: whether the clipboard can be
acquired, the current file-list payload (if the clipboard holds one), and
the filesystem's answer to a per-path metadata query (`none` when the query
fails, e.g. the file was deleted after being copied). -/
structure ClipEnv where
  canOpen : Bool
  payload : Option (List (List Char))
  fs : List Char → Option FsEntry

/-- The `FileInfo` record of `ClipboardManager.h`: fixed-width
`wchar_t path[MAX_PATH]`, `wchar_t name[MAX_PATH]`, a `BOOL` directory
flag and a signed 64-bit `size`.  The two lists hold the characters stored
before the terminating null of the corresponding array. -/
structure FileInfo where
  path : List Char
  name : List Char
  isDirectory : Bool
  size : Int
deriving Repr, DecidableEq

/-- Modelled from the spec: the delimiter placed after each path in the
flat output buffer of `GetClipboardFiles` (§4.2: «separated by a defined
delimiter (the same delimiter must not legally appear inside a valid
path)»). -/
def pathDelim : Char := '\n'

/-- Modelled from the spec (§4.3): the final component of a path — the part
after the last backslash separator. -/
def finalComponent (p : List Char) : List Char :=
  (p.reverse.takeWhile (fun c => c ≠ '\\')).reverse

/-- Modelled from the spec (§4.3): deterministic fail-closed truncation of
a string so that it, plus its terminating null, fits a
`wchar_t[MAX_PATH]` field. -/
def truncField (s : List Char) : List Char :=
  s.take (MAX_PATH - 1)

/-- Modelled from the spec (§4.3): build one `FileInfo` record for a
decoded path.  The filesystem is queried for classification and size; a
directory's size is 0; when the query fails the record is still emitted,
best-effort, with `size = 0` and the deterministic default
`isDirectory = false`. -/
def mkFileRecord (fs : List Char → Option FsEntry) (p : List Char) : FileInfo :=
  match fs p with
  | some e =>
      { path := truncField p
        name := truncField (finalComponent p)
        isDirectory := e.isDirectory
        size := if e.isDirectory then 0 else e.size }
  | none =>
      { path := truncField p
        name := truncField (finalComponent p)
        isDirectory := false
        size := 0 }

/-- Modelled from the spec (§4.4): the contribution of one decoded path to
the total size — the file's byte size for a regular file, 0 for a
directory, 0 when the filesystem query fails. -/
def entrySize (fs : List Char → Option FsEntry) (p : List Char) : Int :=
  match fs p with
  | some e => if e.isDirectory then 0 else e.size
  | none => 0

/-- Modelled from the spec (§4.2): the copy loop of the missing
`GetClipboardFiles` body.  Walks the decoded paths in stored order with
`used` characters already written; a path is appended, followed by the
delimiter, only when it fits whole in the remaining capacity, and the loop
stops at the first path that would exceed capacity (never writing a partial
path).  Returns the characters written and the number of paths written
whole. -/
def packPaths (cap : Nat) : List (List Char) → Nat → List Char × Nat
  | [], _ => ([], 0)
  | p :: rest, used =>
      if used + (p.length + 1) ≤ cap then
        let r := packPaths cap rest (used + (p.length + 1))
        (p ++ pathDelim :: r.1, r.2 + 1)
      else ([], 0)

/-- Modelled from the spec (§4.1): the missing `GetClipboardFileCount`
body.  Returns the number of entries of the file-list payload; absence of
the file-list format and clipboard-acquisition failure are reported as 0
through the `int` return. -/
def GetClipboardFileCount (env : ClipEnv) : Int :=
  if env.canOpen then
    match env.payload with
    | some ps => (ps.length : Int)
    | none => 0
  else 0

/-- Modelled from the spec (§4.5): the missing `HasClipboardFiles` body —
the cheap presence test: `TRUE` exactly when the clipboard holds a
file-list payload with at least one entry. -/
def HasClipboardFiles (env : ClipEnv) : Bool :=
  env.canOpen &&
    match env.payload with
    | some ps => !ps.isEmpty
    | none => false

/-- Modelled from the spec (§4.2): the missing `GetClipboardFiles` body.
Result components: success `BOOL`, characters placed in the caller's
buffer of capacity `bufferSize`, and the `*fileCount` out-parameter.
Success (with whatever prefix fits) when a file-list payload is present,
even a zero-entry one; failure with count 0 when the clipboard cannot be
opened or the payload is not in file-list format. -/
def GetClipboardFiles (env : ClipEnv) (bufferSize : Nat) :
    Bool × List Char × Nat :=
  if env.canOpen then
    match env.payload with
    | some ps =>
        let r := packPaths bufferSize ps 0
        (true, r.1, r.2)
    | none => (false, [], 0)
  else (false, [], 0)

/-- Modelled from the spec (§4.3): the missing `GetClipboardFileInfo`
body.  Result components: success `BOOL`, the records placed in the
caller's array of capacity `maxFiles`, and the `*actualCount`
out-parameter.  Entries are decoded in stored order; when the payload has
more entries than `maxFiles`, exactly `maxFiles` records are written and
that count is reported with success. -/
def GetClipboardFileInfo (env : ClipEnv) (maxFiles : Nat) :
    Bool × List FileInfo × Nat :=
  if env.canOpen then
    match env.payload with
    | some ps =>
        let recs := (ps.take maxFiles).map (mkFileRecord env.fs)
        (true, recs, recs.length)
    | none => (false, [], 0)
  else (false, [], 0)

/-- Modelled from the spec (§4.4): the missing `GetClipboardTotalSize`
body.  Sums the sizes of all non-directory entries of the current
file-list payload; 0 when no files or no file-list payload are present. -/
def GetClipboardTotalSize (env : ClipEnv) : Int :=
  if env.canOpen then
    match env.payload with
    | some ps => (ps.map (entrySize env.fs)).sum
    | none => 0
  else 0

/-- Modelled from the spec (§4.6): the missing `ClearClipboard` body as a
state transformer.  When the clipboard can be acquired its whole content is
removed; when it cannot (contention), nothing is cleared. -/
def ClearClipboard (env : ClipEnv) : ClipEnv :=
  if env.canOpen then { env with payload := none } else env

/-- The caller-visible shape of `ClearClipboard` per the header
(`void ClearClipboard()`): the value handed back to the caller paired with
the clipboard state after the call.  The returned value has type `Unit`
because the declared return type is `void`. -/
def ClearClipboardCall (env : ClipEnv) : Unit × ClipEnv :=
  ((), ClearClipboard env)

/-- Modelled from the spec (§4.1, side effects: «none persist after the
call»): a count-query call as result plus post-call clipboard state. -/
def GetClipboardFileCountCall (env : ClipEnv) : Int × ClipEnv :=
  (GetClipboardFileCount env, env)

/-- Modelled from the spec (§4.2): a path-enumeration call as result plus
post-call clipboard state (read-only, no side effects persist). -/
def GetClipboardFilesCall (env : ClipEnv) (bufferSize : Nat) :
    (Bool × List Char × Nat) × ClipEnv :=
  (GetClipboardFiles env bufferSize, env)

/-- Modelled from the spec (§4.3): a metadata-enumeration call as result
plus post-call clipboard state (read-only, no side effects persist). -/
def GetClipboardFileInfoCall (env : ClipEnv) (maxFiles : Nat) :
    (Bool × List FileInfo × Nat) × ClipEnv :=
  (GetClipboardFileInfo env maxFiles, env)

/-- Modelled from the spec (§4.4): a total-size call as result plus
post-call clipboard state (read-only, no side effects persist). -/
def GetClipboardTotalSizeCall (env : ClipEnv) : Int × ClipEnv :=
  (GetClipboardTotalSize env, env)

/-- Modelled from the spec (§4.5): a presence-test call as result plus
post-call clipboard state (read-only, no side effects persist). -/
def HasClipboardFilesCall (env : ClipEnv) : Bool × ClipEnv :=
  (HasClipboardFiles env, env)

/-- Modelled from the spec (§4.2): the number of characters the full
path-enumeration output needs — each path plus its delimiter. -/
def neededChars (ps : List (List Char)) : Nat :=
  (ps.map (fun p => p.length + 1)).sum

/-- C1: for every clipboard state, the count query returns 0 exactly when
the presence test returns `FALSE` — the two cheap queries are
consistent. -/
theorem count_zero_iff_no_files (env : ClipEnv) :
    GetClipboardFileCount env = 0 ↔ HasClipboardFiles env = false := by
  unfold GetClipboardFileCount HasClipboardFiles
  cases h : env.canOpen with
  | false => simp
  | true =>
      cases hp : env.payload with
      | none => simp
      | some ps =>
          simp only [if_true, Bool.true_and]
          constructor
          · intro hz
            have : ps.length = 0 := by exact_mod_cast hz
            simp [List.isEmpty_iff, List.length_eq_zero.mp this]
          · intro hb
            have : ps.isEmpty = true := by
              cases hq : ps.isEmpty with
              | true => rfl
              | false => simp [hq] at hb
            have : ps = [] := List.isEmpty_iff.mp this
            simp [this]

/-- The copy loop never writes past the declared capacity: starting from
`used` characters already written, the characters it adds keep the total
within `cap`. -/
theorem packPaths_length_le (cap : Nat) (ps : List (List Char)) :
    ∀ used : Nat, used ≤ cap → used + (packPaths cap ps used).1.length ≤ cap := by
  induction ps with
  | nil => intro used h; simpa [packPaths] using h
  | cons p rest ih =>
      intro used h
      by_cases hfit : used + (p.length + 1) ≤ cap
      · have := ih (used + (p.length + 1)) hfit
        simp only [packPaths, if_pos hfit, List.length_append, List.length_cons]
        omega
      · simp only [packPaths, if_neg hfit, List.length_nil]
        omega

/-- The copy loop writes exactly the first `count` paths, each whole and
followed by the delimiter, and the count never exceeds the payload
length. -/
theorem packPaths_buffer_eq (cap : Nat) (ps : List (List Char)) :
    ∀ used : Nat,
      (packPaths cap ps used).1 =
        ((ps.take (packPaths cap ps used).2).map (fun p => p ++ [pathDelim])).flatten ∧
      (packPaths cap ps used).2 ≤ ps.length := by
  induction ps with
  | nil => intro used; simp [packPaths]
  | cons p rest ih =>
      intro used
      by_cases hfit : used + (p.length + 1) ≤ cap
      · have h := ih (used + (p.length + 1))
        simp only [packPaths, if_pos hfit, List.take_succ_cons, List.map_cons,
          List.flatten_cons, List.length_cons]
        exact ⟨by rw [h.1]; simp, by omega⟩
      · simp [packPaths, if_neg hfit]

/-- When the whole output fits in the remaining capacity, the copy loop
writes every path and reports the full count. -/
theorem packPaths_all_fit (cap : Nat) (ps : List (List Char)) :
    ∀ used : Nat, used + neededChars ps ≤ cap →
      packPaths cap ps used =
        ((ps.map (fun p => p ++ [pathDelim])).flatten, ps.length) := by
  induction ps with
  | nil => intro used _; simp [packPaths]
  | cons p rest ih =>
      intro used h
      have hneed : neededChars (p :: rest) = (p.length + 1) + neededChars rest := by
        simp [neededChars]
      have hfit : used + (p.length + 1) ≤ cap := by omega
      have htail := ih (used + (p.length + 1)) (by omega)
      simp only [packPaths, if_pos hfit, htail, List.map_cons, List.flatten_cons,
        List.length_cons]
      simp

/-- On the success path (clipboard acquirable, file-list payload present)
path enumeration runs the copy loop on the payload. -/
theorem GetClipboardFiles_eq_pos (env : ClipEnv) (cap : Nat)
    (ps : List (List Char)) (hopen : env.canOpen = true)
    (hpay : env.payload = some ps) :
    GetClipboardFiles env cap =
      (true, (packPaths cap ps 0).1, (packPaths cap ps 0).2) := by
  simp [GetClipboardFiles, hopen, hpay]

/-- On the success path metadata enumeration maps the record builder over
the first `maxFiles` payload entries. -/
theorem GetClipboardFileInfo_eq_pos (env : ClipEnv) (maxFiles : Nat)
    (ps : List (List Char)) (hopen : env.canOpen = true)
    (hpay : env.payload = some ps) :
    GetClipboardFileInfo env maxFiles =
      (true, (ps.take maxFiles).map (mkFileRecord env.fs),
        ((ps.take maxFiles).map (mkFileRecord env.fs)).length) := by
  simp [GetClipboardFileInfo, hopen, hpay]

/-- The `path` field of an emitted record is always the (truncated) decoded
path, whatever the filesystem answers. -/
theorem mkFileRecord_path (fs : List Char → Option FsEntry) (p : List Char) :
    (mkFileRecord fs p).path = truncField p := by
  unfold mkFileRecord
  cases fs p <;> rfl

/-- The path `C:\a\1.txt` of the spec's worked scenario. -/
def pathTxt : List Char :=
  ['C', ':', '\\', 'a', '\\', '1', '.', 't', 'x', 't']

/-- The path `C:\a\sub` of the spec's worked scenario. -/
def pathSub : List Char :=
  ['C', ':', '\\', 'a', '\\', 's', 'u', 'b']

/-- Concrete filesystem for witnesses: `C:\a\1.txt` is a 100-byte regular
file, `C:\a\sub` a directory, everything else is missing. -/
def fsW : List Char → Option FsEntry := fun p =>
  if p = pathTxt then some { isDirectory := false, size := 100 }
  else if p = pathSub then some { isDirectory := true, size := 0 }
  else none

/-- Witness environment: the spec's worked scenario — clipboard holds
`[C:\a\1.txt, C:\a\sub]`. -/
def envScenario : ClipEnv :=
  { canOpen := true, payload := some [pathTxt, pathSub], fs := fsW }

/-- Witness environment: clipboard held by another process. -/
def envLocked : ClipEnv :=
  { canOpen := false, payload := some [pathTxt], fs := fsW }

/-- Witness environment: clipboard open but holding no file-list payload. -/
def envNoPayload : ClipEnv :=
  { canOpen := true, payload := none, fs := fsW }

/-- Witness environment: a file-list payload with zero entries. -/
def envEmptyList : ClipEnv :=
  { canOpen := true, payload := some [], fs := fsW }

/-- C2: for every file-list payload and declared capacity, path enumeration
succeeds, never writes past the declared capacity, and the buffer holds
exactly the first `count` paths, each whole and delimiter-terminated —
never a partial path. -/
theorem getClipboardFiles_capacity_safe (env : ClipEnv) (cap : Nat)
    (ps : List (List Char)) (hopen : env.canOpen = true)
    (hpay : env.payload = some ps) :
    (GetClipboardFiles env cap).1 = true ∧
    (GetClipboardFiles env cap).2.1.length ≤ cap ∧
    (GetClipboardFiles env cap).2.2 ≤ ps.length ∧
    (GetClipboardFiles env cap).2.1 =
      ((ps.take (GetClipboardFiles env cap).2.2).map
        (fun p => p ++ [pathDelim])).flatten := by
  have hb := packPaths_buffer_eq cap ps 0
  have hl := packPaths_length_le cap ps 0 (Nat.zero_le cap)
  rw [GetClipboardFiles_eq_pos env cap ps hopen hpay]
  exact ⟨rfl, by simpa using hl, hb.2, hb.1⟩

/-- C2 witness: capacity 11 cuts the scenario payload after its first
path. -/
theorem getClipboardFiles_capacity_safe_witness :
    (GetClipboardFiles envScenario 11).1 = true ∧
    (GetClipboardFiles envScenario 11).2.1.length ≤ 11 ∧
    (GetClipboardFiles envScenario 11).2.2 ≤ 2 ∧
    (GetClipboardFiles envScenario 11).2.1 =
      ((([pathTxt, pathSub].take (GetClipboardFiles envScenario 11).2.2).map
        (fun p => p ++ [pathDelim])).flatten) :=
  getClipboardFiles_capacity_safe envScenario 11 [pathTxt, pathSub] rfl rfl

/-- C3: path enumeration distinguishes an empty file list (success, count
0) from failure to open the clipboard or a payload that is not in
file-list format (failure, count 0). -/
theorem getClipboardFiles_empty_vs_error (env : ClipEnv) (cap : Nat) :
    (env.canOpen = true → env.payload = some [] →
      GetClipboardFiles env cap = (true, [], 0)) ∧
    (env.canOpen = false → GetClipboardFiles env cap = (false, [], 0)) ∧
    (env.payload = none → GetClipboardFiles env cap = (false, [], 0)) := by
  refine ⟨fun ho hp => ?_, fun ho => ?_, fun hp => ?_⟩
  · simp [GetClipboardFiles, ho, hp, packPaths]
  · simp [GetClipboardFiles, ho]
  · cases h : env.canOpen <;> simp [GetClipboardFiles, h, hp]

/-- C3 witness: the three cases at concrete environments. -/
theorem getClipboardFiles_empty_vs_error_witness :
    GetClipboardFiles envEmptyList 8 = (true, [], 0) ∧
    GetClipboardFiles envLocked 8 = (false, [], 0) ∧
    GetClipboardFiles envNoPayload 8 = (false, [], 0) :=
  ⟨(getClipboardFiles_empty_vs_error envEmptyList 8).1 rfl rfl,
   (getClipboardFiles_empty_vs_error envLocked 8).2.1 rfl,
   (getClipboardFiles_empty_vs_error envNoPayload 8).2.2 rfl⟩

/-- C4: with capacity for everything, path enumeration and metadata
enumeration both report exactly `N` entries and list them in the payload's
stored order (the buffer is the in-order join of all paths, the record
array's `path` fields are the in-order paths). -/
theorem enumerations_agree (env : ClipEnv) (cap maxFiles : Nat)
    (ps : List (List Char)) (hopen : env.canOpen = true)
    (hpay : env.payload = some ps)
    (hcap : neededChars ps ≤ cap) (hmax : ps.length ≤ maxFiles) :
    (GetClipboardFiles env cap).2.2 = ps.length ∧
    (GetClipboardFileInfo env maxFiles).2.2 = ps.length ∧
    (GetClipboardFiles env cap).2.1 =
      (ps.map (fun p => p ++ [pathDelim])).flatten ∧
    (GetClipboardFileInfo env maxFiles).2.1.map FileInfo.path =
      ps.map truncField := by
  have hall := packPaths_all_fit cap ps 0 (by simpa using hcap)
  have htake : ps.take maxFiles = ps := List.take_of_length_le hmax
  rw [GetClipboardFiles_eq_pos env cap ps hopen hpay,
      GetClipboardFileInfo_eq_pos env maxFiles ps hopen hpay]
  refine ⟨by simp [hall], by simp [htake], by simp [hall], ?_⟩
  simp only [htake, List.map_map]
  exact List.map_congr_left fun p _ => mkFileRecord_path env.fs p

/-- C4 witness: the scenario payload with exact character capacity 20 and
record capacity 2. -/
theorem enumerations_agree_witness :
    (GetClipboardFiles envScenario 20).2.2 = 2 ∧
    (GetClipboardFileInfo envScenario 2).2.2 = 2 ∧
    (GetClipboardFiles envScenario 20).2.1 =
      (([pathTxt, pathSub] : List (List Char)).map
        (fun p => p ++ [pathDelim])).flatten ∧
    (GetClipboardFileInfo envScenario 2).2.1.map FileInfo.path =
      ([pathTxt, pathSub] : List (List Char)).map truncField :=
  enumerations_agree envScenario 20 2 [pathTxt, pathSub] rfl rfl
    (by decide) (by decide)

/-- C5: when the payload has more entries than the record-array capacity,
metadata enumeration writes exactly `maxFiles` records, reports that
count, and returns success. -/
theorem fileInfo_truncation (env : ClipEnv) (maxFiles : Nat)
    (ps : List (List Char)) (hopen : env.canOpen = true)
    (hpay : env.payload = some ps) (hlt : maxFiles < ps.length) :
    (GetClipboardFileInfo env maxFiles).1 = true ∧
    (GetClipboardFileInfo env maxFiles).2.1.length = maxFiles ∧
    (GetClipboardFileInfo env maxFiles).2.2 = maxFiles := by
  rw [GetClipboardFileInfo_eq_pos env maxFiles ps hopen hpay]
  refine ⟨rfl, ?_, ?_⟩ <;> simp [List.length_take] <;> omega

/-- C5 witness: record capacity 1 against the two-entry scenario
payload. -/
theorem fileInfo_truncation_witness :
    (GetClipboardFileInfo envScenario 1).1 = true ∧
    (GetClipboardFileInfo envScenario 1).2.1.length = 1 ∧
    (GetClipboardFileInfo envScenario 1).2.2 = 1 :=
  fileInfo_truncation envScenario 1 [pathTxt, pathSub] rfl rfl (by decide)

/-- A path the scenario filesystem knows nothing about (deleted after being
copied to the clipboard). -/
def pathGone : List Char :=
  ['C', ':', '\\', 'g', 'o', 'n', 'e']

/-- Witness environment: the second listed path no longer exists on
disk. -/
def envMissing : ClipEnv :=
  { canOpen := true, payload := some [pathTxt, pathGone], fs := fsW }

/-- Witness environment: clipboard acquirable and holding one path. -/
def envOpenOne : ClipEnv :=
  { canOpen := true, payload := some [pathTxt], fs := fsW }

/-- C6: a failing filesystem query for one entry neither drops it nor fails
the batch: with capacity for all entries metadata enumeration succeeds and
still reports all of them, and the failing entry's record carries size 0
and the deterministic default `isDirectory = false`. -/
theorem fileInfo_missing_file_best_effort (env : ClipEnv) (maxFiles : Nat)
    (ps : List (List Char)) (i : Nat) (hopen : env.canOpen = true)
    (hpay : env.payload = some ps) (hmax : ps.length ≤ maxFiles)
    (hi : i < ps.length) (hmiss : env.fs (ps.get ⟨i, hi⟩) = none) :
    (GetClipboardFileInfo env maxFiles).1 = true ∧
    (GetClipboardFileInfo env maxFiles).2.2 = ps.length ∧
    ∃ hlen : i < (GetClipboardFileInfo env maxFiles).2.1.length,
      ((GetClipboardFileInfo env maxFiles).2.1.get ⟨i, hlen⟩).size = 0 ∧
      ((GetClipboardFileInfo env maxFiles).2.1.get ⟨i, hlen⟩).isDirectory
        = false := by
  have htake : ps.take maxFiles = ps := List.take_of_length_le hmax
  rw [GetClipboardFileInfo_eq_pos env maxFiles ps hopen hpay, htake]
  refine ⟨rfl, by simp, ?_⟩
  have hlen : i < (ps.map (mkFileRecord env.fs)).length := by
    simpa using hi
  have hget : (ps.map (mkFileRecord env.fs)).get ⟨i, hlen⟩ =
      mkFileRecord env.fs (ps.get ⟨i, hi⟩) := by
    simp [List.get_eq_getElem]
  have hmiss2 : env.fs ps[i] = none := by
    simpa [List.get_eq_getElem] using hmiss
  exact ⟨hlen, by rw [hget]; simp [mkFileRecord, List.get_eq_getElem, hmiss2],
    by rw [hget]; simp [mkFileRecord, List.get_eq_getElem, hmiss2]⟩

/-- C6 witness: the second entry of `envMissing` was deleted from disk. -/
theorem fileInfo_missing_file_best_effort_witness :
    (GetClipboardFileInfo envMissing 2).1 = true ∧
    (GetClipboardFileInfo envMissing 2).2.2 = 2 ∧
    ∃ hlen : 1 < (GetClipboardFileInfo envMissing 2).2.1.length,
      ((GetClipboardFileInfo envMissing 2).2.1.get ⟨1, hlen⟩).size = 0 ∧
      ((GetClipboardFileInfo envMissing 2).2.1.get ⟨1, hlen⟩).isDirectory
        = false :=
  fileInfo_missing_file_best_effort envMissing 2 [pathTxt, pathGone] 1
    rfl rfl (by decide) (by decide) (by decide)

/-- Filtering the emitted records down to non-directories and summing their
size fields gives the same total as summing each path's size
contribution. -/
theorem sum_nondir_sizes (fs : List Char → Option FsEntry)
    (ps : List (List Char)) :
    (((ps.map (mkFileRecord fs)).filter (fun r => !r.isDirectory)).map
      FileInfo.size).sum = (ps.map (entrySize fs)).sum := by
  induction ps with
  | nil => rfl
  | cons p rest ih =>
      simp only [List.map_cons, List.filter_cons]
      cases hfs : fs p with
      | none => simp [mkFileRecord, entrySize, hfs, ih]
      | some e =>
          cases hd : e.isDirectory with
          | false => simp [mkFileRecord, entrySize, hfs, hd, ih]
          | true => simp [mkFileRecord, entrySize, hfs, hd, ih]

/-- C7: the total-size query equals the sum of the size fields of exactly
the records metadata enumeration reports as non-directory for the same
snapshot (directories contribute 0), and the total is 0 when no file-list
payload or no files are present. -/
theorem totalSize_eq_sum_nondir (env : ClipEnv) (maxFiles : Nat)
    (hcap : GetClipboardFileCount env ≤ (maxFiles : Int)) :
    GetClipboardTotalSize env =
      (((GetClipboardFileInfo env maxFiles).2.1.filter
        (fun r => !r.isDirectory)).map FileInfo.size).sum ∧
    (env.payload = none → GetClipboardTotalSize env = 0) ∧
    (env.payload = some [] → GetClipboardTotalSize env = 0) := by
  refine ⟨?_, fun hp => ?_, fun hp => ?_⟩
  · cases ho : env.canOpen with
    | false => simp [GetClipboardTotalSize, GetClipboardFileInfo, ho]
    | true =>
        cases hp : env.payload with
        | none => simp [GetClipboardTotalSize, GetClipboardFileInfo, ho, hp]
        | some ps =>
            have hlen : ps.length ≤ maxFiles := by
              simp [GetClipboardFileCount, ho, hp] at hcap
              exact_mod_cast hcap
            rw [GetClipboardFileInfo_eq_pos env maxFiles ps ho hp,
                List.take_of_length_le hlen]
            simp only [GetClipboardTotalSize, ho, hp, if_true]
            exact (sum_nondir_sizes env.fs ps).symm
  · cases ho : env.canOpen <;> simp [GetClipboardTotalSize, ho, hp]
  · cases ho : env.canOpen <;> simp [GetClipboardTotalSize, ho, hp]

/-- C7 witness: the worked scenario (a 100-byte file and a directory), a
missing payload, and an empty list. -/
theorem totalSize_eq_sum_nondir_witness :
    GetClipboardTotalSize envScenario =
      (((GetClipboardFileInfo envScenario 2).2.1.filter
        (fun r => !r.isDirectory)).map FileInfo.size).sum ∧
    GetClipboardTotalSize envNoPayload = 0 ∧
    GetClipboardTotalSize envEmptyList = 0 :=
  ⟨(totalSize_eq_sum_nondir envScenario 2 (by decide)).1,
   (totalSize_eq_sum_nondir envNoPayload 0 (by decide)).2.1 rfl,
   (totalSize_eq_sum_nondir envEmptyList 0 (by decide)).2.2 rfl⟩

/-- C8: every read-only query (count, path enumeration, metadata
enumeration, total size, presence test) called twice in a row with no
intervening clipboard mutation returns identical results both times. -/
theorem queries_idempotent (env : ClipEnv) (cap maxFiles : Nat) :
    (GetClipboardFileCountCall (GetClipboardFileCountCall env).2).1 =
      (GetClipboardFileCountCall env).1 ∧
    (GetClipboardFilesCall (GetClipboardFilesCall env cap).2 cap).1 =
      (GetClipboardFilesCall env cap).1 ∧
    (GetClipboardFileInfoCall
        (GetClipboardFileInfoCall env maxFiles).2 maxFiles).1 =
      (GetClipboardFileInfoCall env maxFiles).1 ∧
    (GetClipboardTotalSizeCall (GetClipboardTotalSizeCall env).2).1 =
      (GetClipboardTotalSizeCall env).1 ∧
    (HasClipboardFilesCall (HasClipboardFilesCall env).2).1 =
      (HasClipboardFilesCall env).1 :=
  ⟨rfl, rfl, rfl, rfl, rfl⟩

/-- C9 counterexample: a failing `ClearClipboard` call (clipboard not
acquirable) hands the caller exactly the same return value as a succeeding
call, even though the two calls leave different clipboard states — the
declared `void` return communicates no failure signal. -/
theorem clearClipboard_no_return_signal :
    envLocked.canOpen = false ∧ envOpenOne.canOpen = true ∧
    (ClearClipboardCall envLocked).1 = (ClearClipboardCall envOpenOne).1 ∧
    (ClearClipboardCall envLocked).2.payload ≠
      (ClearClipboardCall envOpenOne).2.payload := by
  refine ⟨rfl, rfl, rfl, ?_⟩
  simp [ClearClipboardCall, ClearClipboard, envLocked, envOpenOne]

/-- C9 amended: under contention `ClearClipboard` fails by leaving the
clipboard contents unchanged, and when the clipboard can be acquired it
removes all content; in either case its `void` return reports nothing. -/
theorem clearClipboard_best_effort (env : ClipEnv) :
    (env.canOpen = false → ClearClipboard env = env) ∧
    (env.canOpen = true → (ClearClipboard env).payload = none) := by
  refine ⟨fun h => ?_, fun h => ?_⟩ <;> simp [ClearClipboard, h]

/-- C9 amended witness: the contention case and the success case at
concrete environments. -/
theorem clearClipboard_best_effort_witness :
    ClearClipboard envLocked = envLocked ∧
    (ClearClipboard envOpenOne).payload = none :=
  ⟨(clearClipboard_best_effort envLocked).1 rfl,
   (clearClipboard_best_effort envOpenOne).2 rfl⟩

/-- The scenario filesystem only reports sizes that fit a signed 64-bit
integer. -/
theorem fsW_wf : ∀ p e, fsW p = some e → 0 ≤ e.size ∧ e.size < 2 ^ 63 := by
  intro p e h
  unfold fsW at h
  by_cases h1 : p = pathTxt
  · rw [if_pos h1] at h
    injection h with h
    subst h
    decide
  · rw [if_neg h1] at h
    by_cases h2 : p = pathSub
    · rw [if_pos h2] at h
      injection h with h
      subst h
      decide
    · rw [if_neg h2] at h
      cases h

/-- C10: every record emitted by metadata enumeration satisfies the
fixed-width `FileInfo` invariant: `path` and `name`, terminating null
included, fit in their `wchar_t[MAX_PATH]` arrays, the `size` field is a
valid signed 64-bit value, and a directory record carries size 0. -/
theorem fileInfo_record_invariant (env : ClipEnv) (maxFiles : Nat)
    (hwf : ∀ p e, env.fs p = some e → 0 ≤ e.size ∧ e.size < 2 ^ 63)
    (r : FileInfo) (hr : r ∈ (GetClipboardFileInfo env maxFiles).2.1) :
    r.path.length + 1 ≤ MAX_PATH ∧ r.name.length + 1 ≤ MAX_PATH ∧
    (r.isDirectory = true → r.size = 0) ∧
    0 ≤ r.size ∧ r.size < 2 ^ 63 := by
  cases ho : env.canOpen with
  | false => simp [GetClipboardFileInfo, ho] at hr
  | true =>
      cases hp : env.payload with
      | none => simp [GetClipboardFileInfo, ho, hp] at hr
      | some ps =>
          rw [GetClipboardFileInfo_eq_pos env maxFiles ps ho hp] at hr
          obtain ⟨p, hpmem, rfl⟩ := List.mem_map.mp hr
          have hpath : (truncField p).length + 1 ≤ MAX_PATH := by
            simp [truncField, MAX_PATH]
          have hname : (truncField (finalComponent p)).length + 1 ≤ MAX_PATH := by
            simp [truncField, MAX_PATH]
          unfold mkFileRecord
          cases hfs : env.fs p with
          | none =>
              refine ⟨hpath, hname, ?_, ?_, ?_⟩
              · intro hdir
                rfl
              · norm_num
              · norm_num
          | some e =>
              have hb := hwf p e hfs
              refine ⟨hpath, hname, ?_, ?_, ?_⟩
              · intro hdir
                simp only [hdir] at *
                simp [hdir]
              · cases hd : e.isDirectory with
                | false => simpa [hd] using hb.1
                | true => norm_num [hd]
              · cases hd : e.isDirectory with
                | false => simpa [hd] using hb.2
                | true => norm_num [hd]

/-- C10 witness: the record of the scenario's 100-byte regular file. -/
theorem fileInfo_record_invariant_witness :
    (mkFileRecord fsW pathTxt).path.length + 1 ≤ MAX_PATH ∧
    (mkFileRecord fsW pathTxt).name.length + 1 ≤ MAX_PATH ∧
    ((mkFileRecord fsW pathTxt).isDirectory = true →
      (mkFileRecord fsW pathTxt).size = 0) ∧
    0 ≤ (mkFileRecord fsW pathTxt).size ∧
    (mkFileRecord fsW pathTxt).size < 2 ^ 63 :=
  fileInfo_record_invariant envScenario 2 fsW_wf
    (mkFileRecord fsW pathTxt) (by decide)
